import Mathlib

/-!
# Scene-graph composition of the Ogre backend

A shallow embedding of `src/ogre/OgreVisual.cc` (attach / detach of child
nodes and geometries) and of `ogre/src/OgreMesh.cc` (mesh teardown, skeleton
and animation state, sub-mesh material binding).

Shared pointers are modelled as handles (engine tag + identifier); the heap of
entities is an explicit `World` passed through every operation.  The native
Ogre scene graph is not part of the repository: its scene nodes are modelled by
the attachment relations the code manipulates (`addChild`, `removeChild`,
`attachObject`, `detachObject`), each native setter being a plain update.
Diagnostics written to the error stream are not part of the state.
-/

set_option autoImplicit false

namespace GzRendering

/-! ## Handles and the downcast guard -/

/-- Render engines that produce entities (see `Ogre2RenderTypes.hh` for the
second Ogre generation). -/
inductive Engine where
  | ogre
  | ogre2
  | optix
  deriving DecidableEq, Repr

/-- The referent of a non-null shared pointer to an abstract entity: the engine
whose concrete class the entity is an instance of, and its identity there. -/
structure Handle where
  engine : Engine
  id : Nat
  deriving DecidableEq, Repr

/-- `NodePtr` is a `shared_ptr<Node>`; `none` is the null pointer. -/
abbrev NodePtr := Option Handle

/-- `GeometryPtr` is a `shared_ptr<Geometry>`; `none` is the null pointer. -/
abbrev GeometryPtr := Option Handle

/-- The narrowing `std::dynamic_pointer_cast<OgreNode>` / `<OgreGeometry>`:
it yields the Ogre entity behind the pointer, or null when the pointer is null
or the entity is an instance of another engine's class. -/
def dynamic_pointer_cast : Option Handle → Option Nat
  | some ⟨Engine.ogre, i⟩ => some i
  | _ => none

/-! ## The entity heap -/

/-- Everything the attach / detach operations can read or write.
Visuals, nodes and geometries of the Ogre engine are addressed by their
identifier; a visual is itself a node and shares its identifier with it. -/
structure World where
  /-- Parent back-reference of each node entity (a visual of its own engine). -/
  nodeParent : Handle → Option Nat
  /-- Owner back-reference of each geometry entity. -/
  geometryParent : Handle → Option Nat
  /-- The native scene node of each Ogre node, `OgreNode::GetOgreNode`. -/
  ogreNode : Nat → Nat
  /-- The native movable object of each Ogre geometry, `GetOgreObject`. -/
  ogreObject : Nat → Nat
  /-- The child Store of each Ogre visual, `OgreVisual::children`. -/
  children : Nat → List Handle
  /-- The geometry Store of each Ogre visual, `OgreVisual::geometries`. -/
  geometries : Nat → List Handle
  /-- Native child list of each native scene node. -/
  sceneChildren : Nat → List Nat
  /-- Native attached-object list of each native scene node. -/
  sceneObjects : Nat → List Nat

/-- Modelled from the spec: `OgreNode::SetParent` is not among the sources; it
sets the node's parent back-reference ("child's parent back-reference set to
`parent`"). -/
def OgreNode.SetParent (w : World) (node : Nat) (_parent : Option Nat) : World :=
  { w with nodeParent := Function.update w.nodeParent ⟨Engine.ogre, node⟩ _parent }

/-- Modelled from the spec: `OgreGeometry::SetParent` is not among the sources;
it sets the geometry's back-reference to its owning visual. -/
def OgreGeometry.SetParent (w : World) (geom : Nat) (_parent : Option Nat) : World :=
  { w with geometryParent := Function.update w.geometryParent ⟨Engine.ogre, geom⟩ _parent }

/-- Native `addChild`: the child node becomes a child of the parent node. -/
def SceneNode.addChild (w : World) (parent child : Nat) : World :=
  let kids := List.insert child (w.sceneChildren parent)
  { w with sceneChildren := Function.update w.sceneChildren parent kids }

/-- Native `removeChild`: the child node is no longer a child of the parent. -/
def SceneNode.removeChild (w : World) (parent child : Nat) : World :=
  let kids := (w.sceneChildren parent).filter (fun c => c != child)
  { w with sceneChildren := Function.update w.sceneChildren parent kids }

/-- Native `attachObject`: the movable object is attached to the node. -/
def SceneNode.attachObject (w : World) (node obj : Nat) : World :=
  let objs := List.insert obj (w.sceneObjects node)
  { w with sceneObjects := Function.update w.sceneObjects node objs }

/-- Native `detachObject`: the movable object is detached from the node. -/
def SceneNode.detachObject (w : World) (node obj : Nat) : World :=
  let objs := (w.sceneObjects node).filter (fun o => o != obj)
  { w with sceneObjects := Function.update w.sceneObjects node objs }

/-! ## `OgreVisual` -/

/-- `OgreVisual::GetChildren`. -/
def OgreVisual.GetChildren (w : World) (this : Nat) : List Handle :=
  w.children this

/-- `OgreVisual::GetGeometries`. -/
def OgreVisual.GetGeometries (w : World) (this : Nat) : List Handle :=
  w.geometries this

/-- `OgreVisual::AttachChild`. -/
def OgreVisual.AttachChild (w : World) (this : Nat) (_child : NodePtr) : Bool × World :=
  match dynamic_pointer_cast _child with
  | none => (false, w)
  | some derived =>
    let w1 := OgreNode.SetParent w derived (some this)
    (true, SceneNode.addChild w1 (w1.ogreNode this) (w1.ogreNode derived))

/-- `OgreVisual::DetachChild`. -/
def OgreVisual.DetachChild (w : World) (this : Nat) (_child : NodePtr) : Bool × World :=
  match dynamic_pointer_cast _child with
  | none => (false, w)
  | some derived =>
    (true, SceneNode.removeChild w (w.ogreNode this) (w.ogreNode derived))

/-- `OgreVisual::AttachGeometry`. -/
def OgreVisual.AttachGeometry (w : World) (this : Nat) (_geometry : GeometryPtr) :
    Bool × World :=
  match dynamic_pointer_cast _geometry with
  | none => (false, w)
  | some derived =>
    let w1 := OgreGeometry.SetParent w derived (some this)
    (true, SceneNode.attachObject w1 (w1.ogreNode this) (w1.ogreObject derived))

/-- `OgreVisual::DetachGeometry`. -/
def OgreVisual.DetachGeometry (w : World) (this : Nat) (_geometry : GeometryPtr) :
    Bool × World :=
  match dynamic_pointer_cast _geometry with
  | none => (false, w)
  | some derived =>
    (true, SceneNode.detachObject w (w.ogreNode this) (w.ogreObject derived))

/-- `OgreVisual::Init`: fresh, empty child and geometry Stores. -/
def OgreVisual.Init (w : World) (this : Nat) : World :=
  { w with
    children := Function.update w.children this []
    geometries := Function.update w.geometries this [] }

/-- A scene in which nothing is attached to anything: no back-references, empty
Stores, empty native lists; entity `i` wraps native object `i`. -/
def World.empty : World where
  nodeParent := fun _ => none
  geometryParent := fun _ => none
  ogreNode := fun i => i
  ogreObject := fun i => i
  children := fun _ => []
  geometries := fun _ => []
  sceneChildren := fun _ => []
  sceneObjects := fun _ => []

/-- The world after `V.AttachGeometry(g)` for an Ogre geometry `g`. -/
def OgreVisual.afterAttachGeometry (w : World) (V g : Nat) : World :=
  (OgreVisual.AttachGeometry w V (some ⟨Engine.ogre, g⟩)).2

/-- The world after `V.DetachGeometry(g)` for an Ogre geometry `g`. -/
def OgreVisual.afterDetachGeometry (w : World) (V g : Nat) : World :=
  (OgreVisual.DetachGeometry w V (some ⟨Engine.ogre, g⟩)).2

/-- The world after `P.AttachChild(c)` for an Ogre node `c`. -/
def OgreVisual.afterAttachChild (w : World) (P c : Nat) : World :=
  (OgreVisual.AttachChild w P (some ⟨Engine.ogre, c⟩)).2

/-- The world after `P.DetachChild(c)` for an Ogre node `c`. -/
def OgreVisual.afterDetachChild (w : World) (P c : Nat) : World :=
  (OgreVisual.DetachChild w P (some ⟨Engine.ogre, c⟩)).2

/-- A scene whose visual 0 already lists Ogre node 1 in its child Store (as
left by the base-class `AddChild`), with node 1 natively attached to it. -/
def World.withStoredChild : World :=
  { World.empty with
    children := fun v => if v = 0 then [⟨Engine.ogre, 1⟩] else []
    sceneChildren := fun n => if n = 0 then [1] else []
    nodeParent := fun h => if h = ⟨Engine.ogre, 1⟩ then some 0 else none }

/-! ## Native mesh objects

Scalar values (`Ogre::Real`, `double`) are carried as rationals, which every
finite floating-point value is.  The operations below only copy them, except
for the one floating-point division of `UpdateSkeletonAnimation`, whose
rounding is a parameter. -/

/-- A 3-vector. -/
structure Vector3 where
  x : ℚ
  y : ℚ
  z : ℚ
  deriving DecidableEq

/-- A quaternion. -/
structure Quaternion where
  w : ℚ
  x : ℚ
  y : ℚ
  z : ℚ
  deriving DecidableEq

/-- A local transform `math::Matrix4d`, seen through the two observers the
code uses, already converted to Ogre types:
`OgreConversions::Convert(tf.Translation())` and
`OgreConversions::Convert(tf.Rotation())`. -/
structure Matrix4d where
  Translation : Vector3
  Rotation : Quaternion
  deriving DecidableEq

/-- A bone of a native skeleton instance (`Ogre::Bone`). -/
structure Bone where
  name : String
  manuallyControlled : Bool
  position : Vector3
  orientation : Quaternion
  deriving DecidableEq

/-- A native animation state (`Ogre::AnimationState`). -/
structure AnimationState where
  name : String
  enabled : Bool
  loop : Bool
  weight : ℚ
  timePosition : ℚ
  deriving DecidableEq

/-- A native mesh entity (`Ogre::Entity`): its cast-shadow flag, its skeleton
instance (absent when `hasSkeleton()` is false) and its animation states. -/
structure Entity where
  castShadows : Bool
  skeleton : Option (List Bone)
  animationStates : List AnimationState
  deriving DecidableEq

/-- A native sub-entity (`Ogre::SubEntity`): the name of its material and the
mesh entity it is part of (`getParent()`). -/
structure SubEntity where
  materialName : String
  parent : Entity
  deriving DecidableEq

/-- Calls that leave `OgreMesh.cc` towards collaborators whose code is not
among the sources; they are recorded in order. -/
inductive Call where
  /-- The call `BaseMesh::Destroy()`: base-level teardown. -/
  | BaseMeshDestroy
  /-- The call `OgreSceneManager()->destroyEntity(ogreEntity)`. -/
  | destroyEntity (e : Entity)
  /-- The call `skel->setAnimationState(...)`: native pose recomputation. -/
  | setAnimationState
  /-- The call `skel->_notifyManualBonesDirty()`. -/
  | notifyManualBonesDirty
  /-- The call `OgreRTShaderSystem::Instance()->DetachEntity(this)`. -/
  | DetachEntity
  /-- The call `BaseSubMesh::Destroy()`: base-level teardown. -/
  | BaseSubMeshDestroy
  deriving DecidableEq

/-- `Ogre::Skeleton::hasBone(name)`. -/
def hasBone (skel : List Bone) (boneName : String) : Bool :=
  skel.any (fun b => b.name == boneName)

/-- Apply `f` to the bone that `Ogre::Skeleton::getBone(name)` returns: the
first bone carrying that name. -/
def updateBone (boneName : String) (f : Bone → Bone) : List Bone → List Bone
  | [] => []
  | b :: bs => if b.name == boneName then f b :: bs else b :: updateBone boneName f bs

/-- `Ogre::Entity::hasAnimationState(name)`. -/
def Entity.hasAnimationState (e : Entity) (name : String) : Bool :=
  e.animationStates.any (fun a => a.name == name)

/-- `Ogre::Entity::getAnimationState(name)`: the state registered under that
name. -/
def Entity.getAnimationState (e : Entity) (name : String) : Option AnimationState :=
  e.animationStates.find? (fun a => a.name == name)

/-- Apply `f` to the state that `getAnimationState(name)` returns. -/
def updateAnimationState (name : String) (f : AnimationState → AnimationState) :
    List AnimationState → List AnimationState
  | [] => []
  | a :: as => if a.name == name then f a :: as else a :: updateAnimationState name f as

/-! ## `OgreMesh` -/

/-- An `OgreMesh`: the native entity it wraps (null after `Destroy`), whether
its scene is still initialized (`this->Scene()->IsInitialized()`), and the
calls it has made to collaborators outside the file. -/
structure OgreMesh where
  ogreEntity : Option Entity
  sceneInitialized : Bool
  calls : List Call
  deriving DecidableEq

/-- Modelled from the spec: `BaseMesh::Destroy` is not among the sources; it is
the "base-level structural teardown", recorded as a call. -/
def BaseMesh.Destroy (m : OgreMesh) : OgreMesh :=
  { m with calls := m.calls ++ [Call.BaseMeshDestroy] }

/-- `OgreMesh::Destroy`. -/
def OgreMesh.Destroy (m : OgreMesh) : OgreMesh :=
  match m.ogreEntity with
  | none => m
  | some e =>
    if !m.sceneInitialized then m
    else
      let m1 := BaseMesh.Destroy m
      { m1 with calls := m1.calls ++ [Call.destroyEntity e], ogreEntity := none }

/-- `OgreMesh::HasSkeleton`; `none` when the native entity pointer is null. -/
def OgreMesh.HasSkeleton (m : OgreMesh) : Option Bool :=
  m.ogreEntity.map (fun e => e.skeleton.isSome)

/-- The body of the loop of `SetSkeletonLocalTransforms` for one map entry. -/
def setBoneTransform (skel : List Bone) (entry : String × Matrix4d) : List Bone :=
  if hasBone skel entry.1 then
    updateBone entry.1
      (fun bone => { bone with
        manuallyControlled := true
        position := entry.2.Translation
        orientation := entry.2.Rotation }) skel
  else skel

/-- `OgreMesh::SetSkeletonLocalTransforms`.  The `std::map` argument is given
by its entries in iteration order; `none` is a null native entity pointer. -/
def OgreMesh.SetSkeletonLocalTransforms (m : OgreMesh) (_tfs : List (String × Matrix4d)) :
    Option OgreMesh :=
  match m.ogreEntity with
  | none => none
  | some e =>
    match e.skeleton with
    | none => some m
    | some skel =>
      some { m with ogreEntity := some { e with skeleton := some (_tfs.foldl setBoneTransform skel) } }

/-- `OgreMesh::SetSkeletonAnimationEnabled`; `none` is a null pointer
dereference (no native entity, or no skeleton while `_enabled` is set). -/
def OgreMesh.SetSkeletonAnimationEnabled (m : OgreMesh) (_name : String)
    (_enabled _loop : Bool) (_weight : ℚ) : Option OgreMesh :=
  match m.ogreEntity with
  | none => none
  | some e =>
    if !e.hasAnimationState _name then some m
    else
      let anims := updateAnimationState _name
        (fun anim => { anim with enabled := _enabled, loop := _loop, weight := _weight })
        e.animationStates
      if _enabled then
        match e.skeleton with
        | none => none
        | some skel =>
          let bones := skel.map (fun bone => { bone with manuallyControlled := false })
          some { m with ogreEntity := some { e with skeleton := some bones, animationStates := anims } }
      else
        some { m with ogreEntity := some { e with animationStates := anims } }

/-- The count of `duration_cast<milliseconds>(_time)` for a duration given in
nanosecond ticks: integer division truncating toward zero. -/
def durationMilliseconds (_time : Int) : Int :=
  Int.tdiv _time 1000000

/-- The value `duration_cast<milliseconds>(_time).count() / 1000.0` as the
native setter receives it.  The division is made in `double` and its result is
converted to `Ogre::Real`: `fl` is that rounding of the exact quotient to the
floating-point value.  The formats are not fixed by the sources, so nothing is
assumed of `fl`; `roundDouble` is the instance for a result kept in double
precision. -/
def durationSeconds (fl : ℚ → ℚ) (_time : Int) : ℚ :=
  fl ((durationMilliseconds _time : ℚ) / 1000)

/-- `OgreMesh::UpdateSkeletonAnimation`, with `fl` the floating-point rounding
of `durationSeconds`; `none` is a null pointer dereference (no native entity,
or `skel` null at `skel->setAnimationState`). -/
def OgreMesh.UpdateSkeletonAnimation (fl : ℚ → ℚ) (m : OgreMesh) (_time : Int) :
    Option OgreMesh :=
  match m.ogreEntity with
  | none => none
  | some e =>
    let anims := e.animationStates.map
      (fun anim =>
        if anim.enabled then { anim with timePosition := durationSeconds fl _time } else anim)
    match e.skeleton with
    | none => none
    | some _ =>
      some { m with
        ogreEntity := some { e with animationStates := anims }
        calls := m.calls ++ [Call.setAnimationState, Call.notifyManualBonesDirty] }

/-! ## `OgreSubMesh` and materials -/

/-- The referent of a `MaterialPtr`: the engine whose material class it is an
instance of, with the values of `Name()` and `CastShadows()`. -/
structure Material where
  engine : Engine
  Name : String
  CastShadows : Bool
  deriving DecidableEq

/-- `MaterialPtr` is a `shared_ptr<Material>`; `none` is the null pointer. -/
abbrev MaterialPtr := Option Material

/-- The narrowing `std::dynamic_pointer_cast<OgreMaterial>`. -/
def dynamic_pointer_cast_material : MaterialPtr → Option Material
  | some mat => if mat.engine = Engine.ogre then some mat else none
  | none => none

/-- An `OgreSubMesh`: its native sub-entity, whether its scene is still
initialized, and the calls it has made to collaborators outside the file. -/
structure OgreSubMesh where
  ogreSubEntity : SubEntity
  sceneInitialized : Bool
  calls : List Call
  deriving DecidableEq

/-- `OgreSubMesh::Destroy`: the shader-system detach, then the base-level
teardown (`BaseSubMesh::Destroy`, not among the sources). -/
def OgreSubMesh.Destroy (s : OgreSubMesh) : OgreSubMesh :=
  let s1 := { s with calls := s.calls ++ [Call.DetachEntity] }
  { s1 with calls := s1.calls ++ [Call.BaseSubMeshDestroy] }

/-- `OgreSubMesh::SetMaterialImpl`. -/
def OgreSubMesh.SetMaterialImpl (s : OgreSubMesh) (_material : MaterialPtr) : OgreSubMesh :=
  match dynamic_pointer_cast_material _material with
  | none => s
  | some derived =>
    let sub1 := { s.ogreSubEntity with materialName := derived.Name }
    let sub2 := { sub1 with parent := { sub1.parent with castShadows := derived.CastShadows } }
    { s with ogreSubEntity := sub2 }

/-- A native entity without skeleton or animation. -/
def Entity.plain : Entity :=
  { castShadows := true, skeleton := none, animationStates := [] }

/-- A sub-mesh whose scene has already been torn down. -/
def OgreSubMesh.stale : OgreSubMesh :=
  { ogreSubEntity := { materialName := "Default/White", parent := Entity.plain }
    sceneInitialized := false
    calls := [] }

/-- A mesh with a live native entity whose scene has already been torn down. -/
def OgreMesh.stale : OgreMesh :=
  { ogreEntity := some Entity.plain, sceneInitialized := false, calls := [] }

/-- The bone override in the words of the specification: a bone whose name is
a key of the mapping becomes manually controlled with the translation and
rotation of its mapped transform; any other bone is left as it is. -/
def overrideBone (T : List (String × Matrix4d)) (b : Bone) : Bone :=
  match T.lookup b.name with
  | some tf =>
    { b with manuallyControlled := true, position := tf.Translation, orientation := tf.Rotation }
  | none => b

/-- Two bones, `knee` being under manual control. -/
def walkerBones : List Bone :=
  [⟨"hip", false, ⟨0, 0, 0⟩, ⟨1, 0, 0, 0⟩⟩, ⟨"knee", true, ⟨0, 1, 0⟩, ⟨1, 0, 0, 0⟩⟩]

/-- A native entity with the skeleton `walkerBones` and two animations: `walk`,
disabled, and `run`, enabled and looping. -/
def Entity.walker : Entity :=
  { castShadows := true
    skeleton := some walkerBones
    animationStates := [⟨"walk", false, false, 1, 0⟩, ⟨"run", true, true, 1 / 4, 3⟩] }

/-- A mesh wrapping `Entity.walker` in an initialized scene. -/
def OgreMesh.walker : OgreMesh :=
  { ogreEntity := some Entity.walker, sceneInitialized := true, calls := [] }

/-- Number of halvings that bring `n` below 2, with `fuel` steps at most. -/
def floorLog2Aux : Nat → Nat → Nat
  | 0, _ => 0
  | fuel + 1, n => if n < 2 then 0 else floorLog2Aux fuel (n / 2) + 1

/-- Floor of the binary logarithm of a positive natural number. -/
def floorLog2 (n : Nat) : Nat :=
  floorLog2Aux n n

/-- Floor of the binary logarithm of the positive rational `a / b`. -/
def binExponent (a b : Nat) : Int :=
  let k0 : Int := (floorLog2 a : Int) - (floorLog2 b : Int)
  if b * 2 ^ k0.toNat ≤ a * 2 ^ (-k0).toNat then k0 else k0 - 1

/-- The integer significand `n` and the exponent `e` of the `p`-bit value
nearest to `a / b` (ties to even): the value is `n * 2 ^ e`. -/
def roundQuotient (p : Nat) (a : Int) (b : Nat) : Int × Int :=
  let e : Int := binExponent a.natAbs b - (p - 1 : Nat)
  let N : Int := a * 2 ^ (-e).toNat
  let D : Int := (b : Int) * 2 ^ e.toNat
  let f : Int := Int.fdiv N D
  let R : Int := N - f * D
  let n : Int :=
    if 2 * R < D then f else if D < 2 * R then f + 1 else if f % 2 = 0 then f else f + 1
  (n, e)

/-- Rounding of a rational to the nearest value with a `p`-bit significand. -/
def roundToBits (p : Nat) (q : ℚ) : ℚ :=
  if q.num = 0 then 0
  else ((roundQuotient p q.num q.den).1 : ℚ) * 2 ^ (roundQuotient p q.num q.den).2

/-- The rounding of a division made in `double` (53-bit significand), the
result being kept in double precision. -/
def roundDouble : ℚ → ℚ :=
  roundToBits 53

/-- A transform mapping with one key naming no bone (`elbow`) and one key
naming a bone (`knee`). -/
def walkerTransforms : List (String × Matrix4d) :=
  [("elbow", ⟨⟨1, 2, 3⟩, ⟨0, 1, 0, 0⟩⟩), ("knee", ⟨⟨4, 5, 6⟩, ⟨0, 0, 1, 0⟩⟩)]

/-! ## Skeleton read-out -/

/-- The assignment `mapTfs[key] = tf` on a `std::map` given by its entries in
key order: the value of an existing key is replaced, a new key is inserted at
its place. -/
def mapAssign (key : String) (tf : Matrix4d) :
    List (String × Matrix4d) → List (String × Matrix4d)
  | [] => [(key, tf)]
  | (k, v) :: es =>
    if key < k then (key, tf) :: (k, v) :: es
    else if key = k then (key, tf) :: es
    else (k, v) :: mapAssign key tf es

/-- `OgreMesh::SkeletonLocalTransforms`; `none` is a null native entity.  The
transform built from a bone is the one whose rotation and translation are the
orientation and position of the bone. -/
def OgreMesh.SkeletonLocalTransforms (m : OgreMesh) : Option (List (String × Matrix4d)) :=
  match m.ogreEntity with
  | none => none
  | some e =>
    match e.skeleton with
    | none => some []
    | some skel =>
      some (skel.foldl
        (fun mapTfs bone => mapAssign bone.name ⟨bone.position, bone.orientation⟩ mapTfs) [])

/-- A mesh in an initialized scene whose native entity has no skeleton and no
animation state. -/
def OgreMesh.rigid : OgreMesh :=
  { ogreEntity := some Entity.plain, sceneInitialized := true, calls := [] }

/-! ## Sequences of attach / detach calls -/

/-- One call of an attach / detach operation of an `OgreVisual`. -/
inductive VisualCall where
  | AttachChild (this : Nat) (_child : NodePtr)
  | DetachChild (this : Nat) (_child : NodePtr)
  | AttachGeometry (this : Nat) (_geometry : GeometryPtr)
  | DetachGeometry (this : Nat) (_geometry : GeometryPtr)

/-- The world after one call. -/
def VisualCall.run (w : World) : VisualCall → World
  | VisualCall.AttachChild v x => (OgreVisual.AttachChild w v x).2
  | VisualCall.DetachChild v x => (OgreVisual.DetachChild w v x).2
  | VisualCall.AttachGeometry v x => (OgreVisual.AttachGeometry w v x).2
  | VisualCall.DetachGeometry v x => (OgreVisual.DetachGeometry w v x).2

/-- The world after a sequence of calls, made in order. -/
def runCalls (w : World) (calls : List VisualCall) : World :=
  calls.foldl VisualCall.run w

/-- Single ownership of a world: a node is a native child of at most one
visual, which is the one its parent back-reference names; a geometry is
natively attached to at most one visual, which is the one its owner
back-reference names. -/
def SingleOwnership (w : World) : Prop :=
  (∀ c P Q : Nat, w.ogreNode c ∈ w.sceneChildren (w.ogreNode P) →
    w.ogreNode c ∈ w.sceneChildren (w.ogreNode Q) → P = Q) ∧
  (∀ c P : Nat, w.ogreNode c ∈ w.sceneChildren (w.ogreNode P) →
    w.nodeParent ⟨Engine.ogre, c⟩ = some P) ∧
  (∀ g V U : Nat, w.ogreObject g ∈ w.sceneObjects (w.ogreNode V) →
    w.ogreObject g ∈ w.sceneObjects (w.ogreNode U) → V = U) ∧
  (∀ g V : Nat, w.ogreObject g ∈ w.sceneObjects (w.ogreNode V) →
    w.geometryParent ⟨Engine.ogre, g⟩ = some V)

/-- The discipline "explicit detach first" for one call in world `w`: an attach
call is made only for a node or geometry that is not natively attached to a
different visual.  Detach calls are unrestricted. -/
def VisualCall.DetachedFirst (w : World) : VisualCall → Prop
  | VisualCall.AttachChild v x =>
    ∀ c : Nat, dynamic_pointer_cast x = some c →
      ∀ Q : Nat, Q ≠ v → w.ogreNode c ∉ w.sceneChildren (w.ogreNode Q)
  | VisualCall.AttachGeometry v x =>
    ∀ g : Nat, dynamic_pointer_cast x = some g →
      ∀ U : Nat, U ≠ v → w.ogreObject g ∉ w.sceneObjects (w.ogreNode U)
  | VisualCall.DetachChild _ _ => True
  | VisualCall.DetachGeometry _ _ => True

/-- The discipline "explicit detach first" for a sequence of calls from `w`. -/
def DetachedFirst (w : World) : List VisualCall → Prop
  | [] => True
  | call :: calls => call.DetachedFirst w ∧ DetachedFirst (call.run w) calls

/-- The invariant carried along a sequence of calls: distinct entities wrap
distinct native objects, and whatever is natively attached to a visual names
that visual in its back-reference. -/
def OwnershipInvariant (w : World) : Prop :=
  Function.Injective w.ogreNode ∧
  Function.Injective w.ogreObject ∧
  (∀ c P : Nat, w.ogreNode c ∈ w.sceneChildren (w.ogreNode P) →
    w.nodeParent ⟨Engine.ogre, c⟩ = some P) ∧
  (∀ g V : Nat, w.ogreObject g ∈ w.sceneObjects (w.ogreNode V) →
    w.geometryParent ⟨Engine.ogre, g⟩ = some V)

/-- Two visuals attach the same Ogre geometry, with no detach in between. -/
def attachTwiceCalls : List VisualCall :=
  [VisualCall.AttachGeometry 1 (some ⟨Engine.ogre, 5⟩),
   VisualCall.AttachGeometry 2 (some ⟨Engine.ogre, 5⟩)]

/-- A geometry moves from visual 1 to visual 2, and a node from visual 1 to
visual 3, each with an explicit detach first. -/
def reattachCalls : List VisualCall :=
  [VisualCall.AttachGeometry 1 (some ⟨Engine.ogre, 5⟩),
   VisualCall.DetachGeometry 1 (some ⟨Engine.ogre, 5⟩),
   VisualCall.AttachGeometry 2 (some ⟨Engine.ogre, 5⟩),
   VisualCall.AttachChild 1 (some ⟨Engine.ogre, 2⟩),
   VisualCall.DetachChild 1 (some ⟨Engine.ogre, 2⟩),
   VisualCall.AttachChild 3 (some ⟨Engine.ogre, 2⟩)]

/-! ## Attach / detach: theorems -/

/-- C1: a node or geometry handle that does not narrow to the Ogre concrete
type makes each of `AttachChild`, `DetachChild`, `AttachGeometry` and
`DetachGeometry` return `false` with the whole world (back-references, native
child / object lists, child and geometry Stores) exactly as before. -/
theorem OgreVisual.foreign_handle_rejected (w : World) (V : Nat) (X : Option Handle)
    (hX : dynamic_pointer_cast X = none) :
    OgreVisual.AttachChild w V X = (false, w) ∧
    OgreVisual.DetachChild w V X = (false, w) ∧
    OgreVisual.AttachGeometry w V X = (false, w) ∧
    OgreVisual.DetachGeometry w V X = (false, w) := by
  simp [OgreVisual.AttachChild, OgreVisual.DetachChild, OgreVisual.AttachGeometry,
    OgreVisual.DetachGeometry, hX]

/-- Witness for C1: a node made by the second Ogre generation is rejected by
visual 0 of the empty scene. -/
theorem OgreVisual.foreign_handle_rejected_witness :
    dynamic_pointer_cast (some ⟨Engine.ogre2, 7⟩) = none ∧
    (OgreVisual.AttachChild World.empty 0 (some ⟨Engine.ogre2, 7⟩) = (false, World.empty) ∧
     OgreVisual.DetachChild World.empty 0 (some ⟨Engine.ogre2, 7⟩) = (false, World.empty) ∧
     OgreVisual.AttachGeometry World.empty 0 (some ⟨Engine.ogre2, 7⟩) = (false, World.empty) ∧
     OgreVisual.DetachGeometry World.empty 0 (some ⟨Engine.ogre2, 7⟩) = (false, World.empty)) :=
  ⟨rfl, OgreVisual.foreign_handle_rejected World.empty 0 (some ⟨Engine.ogre2, 7⟩) rfl⟩

/-- C2 (as stated, refuted): in the empty scene, after visual 0 attaches and
then detaches Ogre geometry 5, both calls having returned `true`, the
geometry's owner back-reference still names visual 0; it is not null. -/
theorem OgreVisual.detachGeometry_owner_not_cleared :
    (OgreVisual.AttachGeometry World.empty 0 (some ⟨Engine.ogre, 5⟩)).1 = true ∧
    (OgreVisual.DetachGeometry
      (OgreVisual.AttachGeometry World.empty 0 (some ⟨Engine.ogre, 5⟩)).2 0
      (some ⟨Engine.ogre, 5⟩)).1 = true ∧
    (OgreVisual.DetachGeometry
      (OgreVisual.AttachGeometry World.empty 0 (some ⟨Engine.ogre, 5⟩)).2 0
      (some ⟨Engine.ogre, 5⟩)).2.geometryParent ⟨Engine.ogre, 5⟩ = some 0 ∧
    (OgreVisual.DetachGeometry
      (OgreVisual.AttachGeometry World.empty 0 (some ⟨Engine.ogre, 5⟩)).2 0
      (some ⟨Engine.ogre, 5⟩)).2.geometryParent ⟨Engine.ogre, 5⟩ ≠ none := by
  refine ⟨rfl, rfl, ?_, ?_⟩ <;>
    simp [OgreVisual.AttachGeometry, OgreVisual.DetachGeometry, dynamic_pointer_cast,
      OgreGeometry.SetParent, SceneNode.attachObject, SceneNode.detachObject]

/-- C2 (amended): for every visual `V` and Ogre geometry `g`, `AttachGeometry`
returns `true`, sets the owner back-reference of `g` to `V` and attaches the
native object of `g` to the native node of `V`; a following `DetachGeometry`
returns `true`, removes that native attachment, leaves the owner back-reference
as it was (still `V`) and keeps the native object of `g`, so that any visual
`V2` can attach `g` again. -/
theorem OgreVisual.attach_detach_geometry (w : World) (V g : Nat) :
    (OgreVisual.AttachGeometry w V (some ⟨Engine.ogre, g⟩)).1 = true ∧
    (OgreVisual.afterAttachGeometry w V g).geometryParent ⟨Engine.ogre, g⟩ = some V ∧
    (OgreVisual.afterAttachGeometry w V g).ogreObject g ∈
      (OgreVisual.afterAttachGeometry w V g).sceneObjects
        ((OgreVisual.afterAttachGeometry w V g).ogreNode V) ∧
    (OgreVisual.DetachGeometry (OgreVisual.afterAttachGeometry w V g) V
      (some ⟨Engine.ogre, g⟩)).1 = true ∧
    (OgreVisual.afterDetachGeometry (OgreVisual.afterAttachGeometry w V g) V g).ogreObject g ∉
      (OgreVisual.afterDetachGeometry (OgreVisual.afterAttachGeometry w V g) V g).sceneObjects
        ((OgreVisual.afterDetachGeometry (OgreVisual.afterAttachGeometry w V g) V g).ogreNode V) ∧
    (OgreVisual.afterDetachGeometry (OgreVisual.afterAttachGeometry w V g) V g).geometryParent
      ⟨Engine.ogre, g⟩ = some V ∧
    (OgreVisual.afterDetachGeometry (OgreVisual.afterAttachGeometry w V g) V g).ogreObject g =
      w.ogreObject g ∧
    ∀ V2 : Nat,
      (OgreVisual.AttachGeometry
        (OgreVisual.afterDetachGeometry (OgreVisual.afterAttachGeometry w V g) V g) V2
        (some ⟨Engine.ogre, g⟩)).1 = true ∧
      (OgreVisual.afterAttachGeometry
        (OgreVisual.afterDetachGeometry (OgreVisual.afterAttachGeometry w V g) V g) V2
        g).geometryParent ⟨Engine.ogre, g⟩ = some V2 ∧
      w.ogreObject g ∈
        (OgreVisual.afterAttachGeometry
          (OgreVisual.afterDetachGeometry (OgreVisual.afterAttachGeometry w V g) V g) V2
          g).sceneObjects (w.ogreNode V2) := by
  refine ⟨rfl, ?_, ?_, rfl, ?_, ?_, ?_, fun V2 => ⟨rfl, ?_, ?_⟩⟩ <;>
    simp [OgreVisual.afterAttachGeometry, OgreVisual.afterDetachGeometry,
      OgreVisual.AttachGeometry, OgreVisual.DetachGeometry, dynamic_pointer_cast,
      OgreGeometry.SetParent, SceneNode.attachObject, SceneNode.detachObject]

/-- C3 (as stated, refuted): in the empty scene `P.AttachChild(C)` returns
`true` yet the child Store of `P` stays empty, so `C` is not an entry of it;
and where the Store of visual 0 lists node 1, `DetachChild` returns `true` and
node 1 is still an entry of that Store. -/
theorem OgreVisual.child_store_not_maintained :
    (OgreVisual.AttachChild World.empty 0 (some ⟨Engine.ogre, 1⟩)).1 = true ∧
    (⟨Engine.ogre, 1⟩ : Handle) ∉
      OgreVisual.GetChildren (OgreVisual.afterAttachChild World.empty 0 1) 0 ∧
    (OgreVisual.DetachChild World.withStoredChild 0 (some ⟨Engine.ogre, 1⟩)).1 = true ∧
    (⟨Engine.ogre, 1⟩ : Handle) ∈
      OgreVisual.GetChildren (OgreVisual.afterDetachChild World.withStoredChild 0 1) 0 := by
  refine ⟨rfl, ?_, rfl, ?_⟩ <;>
    simp [OgreVisual.GetChildren, OgreVisual.afterAttachChild, OgreVisual.afterDetachChild,
      OgreVisual.AttachChild, OgreVisual.DetachChild, dynamic_pointer_cast,
      OgreNode.SetParent, SceneNode.addChild, SceneNode.removeChild, World.empty,
      World.withStoredChild]

/-- C3 (amended): for every visual `P` and Ogre node `c`, `AttachChild` returns
`true`, sets the parent back-reference of `c` to `P`, makes the native node of
`c` a child of the native node of `P`, and leaves every child and geometry
Store as it was; a following `DetachChild` returns `true`, removes the native
node of `c` from the native node of `P`, again leaves every Store as it was,
and keeps `c` with its native node. -/
theorem OgreVisual.attach_detach_child (w : World) (P c : Nat) :
    (OgreVisual.AttachChild w P (some ⟨Engine.ogre, c⟩)).1 = true ∧
    (OgreVisual.afterAttachChild w P c).nodeParent ⟨Engine.ogre, c⟩ = some P ∧
    (OgreVisual.afterAttachChild w P c).ogreNode c ∈
      (OgreVisual.afterAttachChild w P c).sceneChildren
        ((OgreVisual.afterAttachChild w P c).ogreNode P) ∧
    (OgreVisual.afterAttachChild w P c).children = w.children ∧
    (OgreVisual.afterAttachChild w P c).geometries = w.geometries ∧
    (OgreVisual.DetachChild (OgreVisual.afterAttachChild w P c) P
      (some ⟨Engine.ogre, c⟩)).1 = true ∧
    (OgreVisual.afterDetachChild (OgreVisual.afterAttachChild w P c) P c).ogreNode c ∉
      (OgreVisual.afterDetachChild (OgreVisual.afterAttachChild w P c) P c).sceneChildren
        ((OgreVisual.afterDetachChild (OgreVisual.afterAttachChild w P c) P c).ogreNode P) ∧
    (OgreVisual.afterDetachChild (OgreVisual.afterAttachChild w P c) P c).children =
      w.children ∧
    (OgreVisual.afterDetachChild (OgreVisual.afterAttachChild w P c) P c).geometries =
      w.geometries ∧
    (OgreVisual.afterDetachChild (OgreVisual.afterAttachChild w P c) P c).ogreNode c =
      w.ogreNode c := by
  refine ⟨rfl, ?_, ?_, rfl, rfl, rfl, ?_, rfl, rfl, rfl⟩ <;>
    simp [OgreVisual.afterAttachChild, OgreVisual.afterDetachChild,
      OgreVisual.AttachChild, OgreVisual.DetachChild, dynamic_pointer_cast,
      OgreNode.SetParent, SceneNode.addChild, SceneNode.removeChild]

/-! ## Material binding and teardown: theorems -/

/-- C4: `SetMaterialImpl` with a material of the Ogre engine sets the name of
the native sub-entity material to `M.Name()` and the cast-shadow flag of the
parent native entity to `M.CastShadows()` (the rest of the parent entity is
kept); with a material of another engine, or a null pointer, the sub-mesh is
left exactly as it was. -/
theorem OgreSubMesh.setMaterialImpl_effect (s : OgreSubMesh) (name : String) (shadows : Bool) :
    (OgreSubMesh.SetMaterialImpl s (some ⟨Engine.ogre, name, shadows⟩)).ogreSubEntity.materialName
      = name ∧
    (OgreSubMesh.SetMaterialImpl s
      (some ⟨Engine.ogre, name, shadows⟩)).ogreSubEntity.parent.castShadows = shadows ∧
    (OgreSubMesh.SetMaterialImpl s
      (some ⟨Engine.ogre, name, shadows⟩)).ogreSubEntity.parent.skeleton =
        s.ogreSubEntity.parent.skeleton ∧
    (OgreSubMesh.SetMaterialImpl s
      (some ⟨Engine.ogre, name, shadows⟩)).ogreSubEntity.parent.animationStates =
        s.ogreSubEntity.parent.animationStates ∧
    OgreSubMesh.SetMaterialImpl s (some ⟨Engine.ogre2, name, shadows⟩) = s ∧
    OgreSubMesh.SetMaterialImpl s (some ⟨Engine.optix, name, shadows⟩) = s ∧
    OgreSubMesh.SetMaterialImpl s none = s := by
  simp [OgreSubMesh.SetMaterialImpl, dynamic_pointer_cast_material]

/-- C5: `Destroy` twice is `Destroy` once, for every mesh state; and on a mesh
with a native entity `e` and an initialized scene the first call makes the base
teardown and the `destroyEntity` call and nulls the entity field, after which
the second call adds no call at all. -/
theorem OgreMesh.destroy_idempotent (m : OgreMesh) (e : Entity) (log : List Call) :
    OgreMesh.Destroy (OgreMesh.Destroy m) = OgreMesh.Destroy m ∧
    OgreMesh.Destroy ⟨some e, true, log⟩ =
      ⟨none, true, log ++ [Call.BaseMeshDestroy] ++ [Call.destroyEntity e]⟩ ∧
    (OgreMesh.Destroy (OgreMesh.Destroy ⟨some e, true, log⟩)).calls =
      (OgreMesh.Destroy ⟨some e, true, log⟩).calls := by
  refine ⟨?_, ?_, ?_⟩
  · cases h : m.ogreEntity with
    | none => simp [OgreMesh.Destroy, h]
    | some e0 =>
      cases hi : m.sceneInitialized <;>
        simp [OgreMesh.Destroy, BaseMesh.Destroy, h, hi]
  · simp [OgreMesh.Destroy, BaseMesh.Destroy]
  · simp [OgreMesh.Destroy, BaseMesh.Destroy]

/-- C6 (as stated, refuted): a sub-mesh whose scene is no longer initialized
still makes the shader-system detach call and the base-level teardown call
when destroyed; its state is not left unchanged. -/
theorem OgreSubMesh.destroy_ignores_stale_scene :
    OgreSubMesh.stale.sceneInitialized = false ∧
    (OgreSubMesh.Destroy OgreSubMesh.stale).calls =
      [Call.DetachEntity, Call.BaseSubMeshDestroy] ∧
    OgreSubMesh.Destroy OgreSubMesh.stale ≠ OgreSubMesh.stale := by
  refine ⟨rfl, rfl, ?_⟩
  intro h
  have hc := congrArg OgreSubMesh.calls h
  simp [OgreSubMesh.Destroy, OgreSubMesh.stale] at hc

/-- C6 (amended): `OgreMesh::Destroy` on a mesh whose scene is no longer
initialized changes nothing (no base teardown, no native destroy, every field
kept); `OgreSubMesh::Destroy` has no such check: whatever the state of its
scene it makes the shader-system detach call and then the base-level teardown
call, and changes no other field of the sub-mesh. -/
theorem OgreMesh.destroy_stale_scene (m : OgreMesh) (s : OgreSubMesh)
    (hm : m.sceneInitialized = false) :
    OgreMesh.Destroy m = m ∧
    (OgreSubMesh.Destroy s).calls = s.calls ++ [Call.DetachEntity, Call.BaseSubMeshDestroy] ∧
    (OgreSubMesh.Destroy s).ogreSubEntity = s.ogreSubEntity ∧
    (OgreSubMesh.Destroy s).sceneInitialized = s.sceneInitialized := by
  refine ⟨?_, ?_, rfl, rfl⟩
  · cases h : m.ogreEntity <;> simp [OgreMesh.Destroy, h, hm]
  · simp [OgreSubMesh.Destroy]

/-- Witness for C6 (amended): a mesh with a live native entity and a sub-mesh,
both in a scene that has been torn down. -/
theorem OgreMesh.destroy_stale_scene_witness :
    OgreMesh.stale.sceneInitialized = false ∧
    (OgreMesh.Destroy OgreMesh.stale = OgreMesh.stale ∧
     (OgreSubMesh.Destroy OgreSubMesh.stale).calls =
       OgreSubMesh.stale.calls ++ [Call.DetachEntity, Call.BaseSubMeshDestroy] ∧
     (OgreSubMesh.Destroy OgreSubMesh.stale).ogreSubEntity = OgreSubMesh.stale.ogreSubEntity ∧
     (OgreSubMesh.Destroy OgreSubMesh.stale).sceneInitialized =
       OgreSubMesh.stale.sceneInitialized) :=
  ⟨rfl, OgreMesh.destroy_stale_scene OgreMesh.stale OgreSubMesh.stale rfl⟩

/-! ## Skeleton and animation: lemmas -/

/-- With unique bone names, updating the bone found by name is updating every
bone of that name. -/
theorem updateBone_eq_map (n : String) (f : Bone → Bone) (skel : List Bone)
    (hn : (skel.map Bone.name).Nodup) :
    updateBone n f skel = skel.map (fun b => if b.name = n then f b else b) := by
  induction skel with
  | nil => rfl
  | cons b bs ih =>
    simp only [List.map_cons, List.nodup_cons, List.mem_map, not_exists, not_and] at hn
    by_cases hb : b.name = n
    · have hbs : bs.map (fun b => if b.name = n then f b else b) = bs := by
        conv_rhs => rw [← List.map_id bs]
        apply List.map_congr_left
        intro c hc
        have : c.name ≠ n := fun h => hn.1 c hc (h.trans hb.symm)
        simp [this]
      simp [updateBone, hb, hbs]
    · simp [updateBone, hb, ih hn.2]

/-- One iteration of the loop of `SetSkeletonLocalTransforms`, as a map over
the bones. -/
theorem setBoneTransform_eq_map (skel : List Bone) (entry : String × Matrix4d)
    (hn : (skel.map Bone.name).Nodup) :
    setBoneTransform skel entry = skel.map (fun b => if b.name = entry.1 then
      { b with manuallyControlled := true, position := entry.2.Translation,
               orientation := entry.2.Rotation } else b) := by
  unfold setBoneTransform
  split
  · exact updateBone_eq_map _ _ _ hn
  · rename_i h
    conv_lhs => rw [← List.map_id skel]
    apply List.map_congr_left
    intro c hc
    have : c.name ≠ entry.1 := by
      intro hce
      apply h
      simp only [hasBone, List.any_eq_true]
      exact ⟨c, hc, by simp [hce]⟩
    simp [this]

/-- Looking up a name that is no key of the mapping finds nothing. -/
theorem lookup_eq_none_of_not_mem (T : List (String × Matrix4d)) (k : String)
    (hk : k ∉ T.map Prod.fst) : T.lookup k = none := by
  induction T with
  | nil => rfl
  | cons p ps ih =>
    obtain ⟨k0, v0⟩ := p
    simp only [List.map_cons, List.mem_cons, not_or] at hk
    have : (k == k0) = false := by simpa using hk.1
    simp [List.lookup, this, ih hk.2]

/-- The loop of `SetSkeletonLocalTransforms` computes the override of the
specification on every bone. -/
theorem foldl_setBoneTransform (T : List (String × Matrix4d)) (skel : List Bone)
    (hn : (skel.map Bone.name).Nodup) (hk : (T.map Prod.fst).Nodup) :
    T.foldl setBoneTransform skel = skel.map (overrideBone T) := by
  induction T generalizing skel with
  | nil =>
    have h : overrideBone [] = id := by
      funext b
      simp [overrideBone, List.lookup]
    simp [h]
  | cons p ps ih =>
    obtain ⟨k, tf⟩ := p
    simp only [List.map_cons, List.nodup_cons] at hk
    simp only [List.foldl_cons]
    rw [setBoneTransform_eq_map skel (k, tf) hn]
    rw [ih _ (by simpa [List.map_map, Function.comp_def, apply_ite Bone.name] using hn) hk.2]
    rw [List.map_map]
    apply List.map_congr_left
    intro b _
    by_cases hb : b.name = k
    · have hl := lookup_eq_none_of_not_mem ps k hk.1
      simp [overrideBone, hb, hl, List.lookup]
    · have : (b.name == k) = false := by simpa using hb
      simp [overrideBone, hb, List.lookup, this]

/-- With unique keys, looking up the key of an entry finds that entry. -/
theorem lookup_eq_some_of_mem (T : List (String × Matrix4d)) (k : String) (tf : Matrix4d)
    (hk : (T.map Prod.fst).Nodup) (hm : (k, tf) ∈ T) : T.lookup k = some tf := by
  induction T with
  | nil => simp at hm
  | cons p ps ih =>
    obtain ⟨k0, v0⟩ := p
    simp only [List.map_cons, List.nodup_cons, List.mem_map, not_exists, not_and] at hk
    rcases List.mem_cons.mp hm with h | h
    · cases h
      simp [List.lookup]
    · have hne : k ≠ k0 := fun hkk => hk.1 (k, tf) h hkk
      have : (k == k0) = false := by simpa using hne
      simp [List.lookup, this, ih hk.2 h]

/-- Dropping entries by a test on their key does not change the lookup of a
key that passes the test. -/
theorem lookup_filter_key (q : String → Bool) (T : List (String × Matrix4d)) (k : String)
    (hq : q k = true) : (T.filter (fun en => q en.1)).lookup k = T.lookup k := by
  induction T with
  | nil => rfl
  | cons p ps ih =>
    obtain ⟨k0, v0⟩ := p
    by_cases h0 : q k0 = true
    · simp only [List.filter_cons, h0, if_true, List.lookup, ih]
    · have hne : k ≠ k0 := fun hkk => h0 (hkk ▸ hq)
      have : (k == k0) = false := by simpa using hne
      simp [List.filter_cons, h0, List.lookup, this, ih]

/-! ## Skeleton and animation: theorems -/

/-- C7: on a mesh with a skeleton (bone names unique, as in a native skeleton)
and a mapping `T` (keys unique, as in a `std::map`),
`SetSkeletonLocalTransforms` returns normally and changes only the bones:
bone by bone, the name is kept; a bone whose name is a key of `T` is manually
controlled and has the translation and rotation of its mapped transform as
position and orientation; a bone whose name is no key of `T` is exactly as
before; and the keys of `T` that name no bone can be dropped from `T` without
changing the result. -/
theorem OgreMesh.setSkeletonLocalTransforms_effect (m : OgreMesh) (e : Entity)
    (skel : List Bone) (T : List (String × Matrix4d))
    (he : m.ogreEntity = some e) (hs : e.skeleton = some skel)
    (hn : (skel.map Bone.name).Nodup) (hk : (T.map Prod.fst).Nodup) :
    ∃ skel2 : List Bone,
      OgreMesh.SetSkeletonLocalTransforms m T =
        some { m with ogreEntity := some { e with skeleton := some skel2 } } ∧
      List.Forall₂ (fun b b2 =>
        b2.name = b.name ∧
        (∀ tf, (b.name, tf) ∈ T →
          b2.manuallyControlled = true ∧ b2.position = tf.Translation ∧
          b2.orientation = tf.Rotation) ∧
        (b.name ∉ T.map Prod.fst → b2 = b)) skel skel2 ∧
      OgreMesh.SetSkeletonLocalTransforms m (T.filter (fun en => hasBone skel en.1)) =
        OgreMesh.SetSkeletonLocalTransforms m T := by
  refine ⟨skel.map (overrideBone T), ?_, ?_, ?_⟩
  · simp [OgreMesh.SetSkeletonLocalTransforms, he, hs, foldl_setBoneTransform T skel hn hk]
  · rw [List.forall₂_map_right_iff, List.forall₂_same]
    intro b _
    refine ⟨?_, ?_, ?_⟩
    · unfold overrideBone
      split <;> rfl
    · intro tf htf
      simp [overrideBone, lookup_eq_some_of_mem T b.name tf hk htf]
    · intro hb
      simp [overrideBone, lookup_eq_none_of_not_mem T b.name hb]
  · have hk2 : ((T.filter (fun en => hasBone skel en.1)).map Prod.fst).Nodup :=
      List.Nodup.sublist (List.Sublist.map _ (List.filter_sublist _)) hk
    simp only [OgreMesh.SetSkeletonLocalTransforms, he, hs,
      foldl_setBoneTransform T skel hn hk, foldl_setBoneTransform _ skel hn hk2]
    have : skel.map (overrideBone (T.filter (fun en => hasBone skel en.1))) =
        skel.map (overrideBone T) := by
      apply List.map_congr_left
      intro b hb
      have hq : hasBone skel b.name = true := by
        simp only [hasBone, List.any_eq_true]
        exact ⟨b, hb, by simp⟩
      simp [overrideBone, lookup_filter_key (hasBone skel) T b.name hq]
    rw [this]

/-- Witness for C7: the walker mesh with a mapping naming one bone (`knee`)
and one name that is no bone (`elbow`). -/
theorem OgreMesh.setSkeletonLocalTransforms_effect_witness :
    OgreMesh.walker.ogreEntity = some Entity.walker ∧
    Entity.walker.skeleton = some walkerBones ∧
    (walkerBones.map Bone.name).Nodup ∧
    (walkerTransforms.map Prod.fst).Nodup ∧
    ∃ skel2 : List Bone,
      OgreMesh.SetSkeletonLocalTransforms OgreMesh.walker walkerTransforms =
        some { OgreMesh.walker with
          ogreEntity := some { Entity.walker with skeleton := some skel2 } } ∧
      List.Forall₂ (fun b b2 =>
        b2.name = b.name ∧
        (∀ tf, (b.name, tf) ∈ walkerTransforms →
          b2.manuallyControlled = true ∧ b2.position = tf.Translation ∧
          b2.orientation = tf.Rotation) ∧
        (b.name ∉ walkerTransforms.map Prod.fst → b2 = b)) walkerBones skel2 ∧
      OgreMesh.SetSkeletonLocalTransforms OgreMesh.walker
        (walkerTransforms.filter (fun en => hasBone walkerBones en.1)) =
        OgreMesh.SetSkeletonLocalTransforms OgreMesh.walker walkerTransforms :=
  ⟨rfl, rfl, by decide, by decide,
    OgreMesh.setSkeletonLocalTransforms_effect OgreMesh.walker Entity.walker _ walkerTransforms
      rfl rfl (by decide) (by decide)⟩

/-- Reading the animation state that was just updated gives the updated state. -/
theorem find?_updateAnimationState_self (n : String) (f : AnimationState → AnimationState)
    (l : List AnimationState) (hf : ∀ a, (f a).name = a.name) :
    (updateAnimationState n f l).find? (fun a => a.name == n) =
      (l.find? (fun a => a.name == n)).map f := by
  induction l with
  | nil => rfl
  | cons a as ih =>
    by_cases h : a.name = n
    · simp [updateAnimationState, List.find?, h, hf]
    · have hb : (a.name == n) = false := by simpa using h
      simp [updateAnimationState, List.find?, hb, ih]

/-- A defined animation name has a state. -/
theorem find?_of_any (n : String) (l : List AnimationState)
    (h : l.any (fun a => a.name == n) = true) :
    ∃ a, l.find? (fun a => a.name == n) = some a ∧ a.name = n := by
  induction l with
  | nil => simp at h
  | cons a as ih =>
    by_cases hn : a.name = n
    · exact ⟨a, by simp [List.find?, hn], hn⟩
    · have hb : (a.name == n) = false := by simpa using hn
      simp only [List.any_cons, hb, Bool.false_or] at h
      obtain ⟨x, hx, hxn⟩ := ih h
      exact ⟨x, by simp [List.find?, hb, hx], hxn⟩

/-- Updating a bone keeps the number of bones. -/
theorem length_updateBone (n : String) (f : Bone → Bone) (skel : List Bone) :
    (updateBone n f skel).length = skel.length := by
  induction skel with
  | nil => rfl
  | cons b bs ih =>
    by_cases h : (b.name == n) = true
    · simp [updateBone, h]
    · simp [updateBone, h, ih]

/-- The loop of `SetSkeletonLocalTransforms` keeps the number of bones. -/
theorem length_foldl_setBoneTransform (T : List (String × Matrix4d)) (skel : List Bone) :
    (T.foldl setBoneTransform skel).length = skel.length := by
  induction T generalizing skel with
  | nil => rfl
  | cons p ps ih =>
    rw [List.foldl_cons, ih]
    unfold setBoneTransform
    split
    · exact length_updateBone _ _ _
    · rfl

/-- C8: on a mesh with a skeleton and for a defined animation name,
`SetSkeletonAnimationEnabled(name, true, loop, weight)` returns normally; after
it every bone has its manual-control flag false (the bones are otherwise
unchanged) and the state of `name` has `enabled = true`, `loop = loop`,
`weight = weight`; the same holds for the bones when the call follows a
`SetSkeletonLocalTransforms` call with any mapping `T`. -/
theorem OgreMesh.setSkeletonAnimationEnabled_true (m : OgreMesh) (e : Entity)
    (skel : List Bone) (name : String) (loop : Bool) (weight : ℚ)
    (he : m.ogreEntity = some e) (hs : e.skeleton = some skel)
    (ha : e.hasAnimationState name = true) :
    (∃ (m2 : OgreMesh) (e2 : Entity) (skel2 : List Bone) (anim : AnimationState),
      OgreMesh.SetSkeletonAnimationEnabled m name true loop weight = some m2 ∧
      m2.ogreEntity = some e2 ∧ e2.skeleton = some skel2 ∧
      (∀ b ∈ skel2, b.manuallyControlled = false) ∧
      skel2 = skel.map (fun b => { b with manuallyControlled := false }) ∧
      e2.getAnimationState name = some anim ∧
      anim.name = name ∧ anim.enabled = true ∧ anim.loop = loop ∧ anim.weight = weight) ∧
    (∀ T : List (String × Matrix4d),
      ∃ (m1 m3 : OgreMesh) (e3 : Entity) (skel3 : List Bone),
        OgreMesh.SetSkeletonLocalTransforms m T = some m1 ∧
        OgreMesh.SetSkeletonAnimationEnabled m1 name true loop weight = some m3 ∧
        m3.ogreEntity = some e3 ∧ e3.skeleton = some skel3 ∧
        skel3.length = skel.length ∧
        ∀ b ∈ skel3, b.manuallyControlled = false) := by
  have hany : e.animationStates.any (fun a => a.name == name) = true := ha
  obtain ⟨a0, ha0, hname0⟩ := find?_of_any name e.animationStates hany
  constructor
  · refine ⟨{ m with ogreEntity := some { e with
        skeleton := some (skel.map (fun b => { b with manuallyControlled := false }))
        animationStates := updateAnimationState name
          (fun anim => { anim with enabled := true, loop := loop, weight := weight })
          e.animationStates } }, _, _,
      { a0 with enabled := true, loop := loop, weight := weight }, ?_, rfl, rfl,
      ?_, rfl, ?_, hname0, rfl, rfl, rfl⟩
    · simp [OgreMesh.SetSkeletonAnimationEnabled, he, hs, ha]
    · intro b hb
      simp only [List.mem_map] at hb
      obtain ⟨b0, _, rfl⟩ := hb
      rfl
    · simp [Entity.getAnimationState, find?_updateAnimationState_self, ha0]
  · intro T
    refine ⟨{ m with ogreEntity := some { e with
        skeleton := some (T.foldl setBoneTransform skel) } },
      { m with ogreEntity := some { e with
        skeleton := some ((T.foldl setBoneTransform skel).map
          (fun b => { b with manuallyControlled := false }))
        animationStates := updateAnimationState name
          (fun anim => { anim with enabled := true, loop := loop, weight := weight })
          e.animationStates } }, _, _, ?_, ?_, rfl, rfl, ?_, ?_⟩
    · simp [OgreMesh.SetSkeletonLocalTransforms, he, hs]
    · simp [OgreMesh.SetSkeletonAnimationEnabled, Entity.hasAnimationState, hany]
    · simp [length_foldl_setBoneTransform]
    · intro b hb
      simp only [List.mem_map] at hb
      obtain ⟨b0, _, rfl⟩ := hb
      rfl

/-- The `double` nearest to 1234 / 1000 is 5557441940175192 / 2 ^ 52. -/
theorem roundDouble_1234_milliseconds :
    roundDouble ((1234 : ℚ) / 1000) = 5557441940175192 / 4503599627370496 := by
  have h1 : ((1234 : ℚ) / 1000) = 617 / 500 := by norm_num
  have hn : ((617 : ℚ) / 500).num = 617 := by norm_num
  have hd : ((617 : ℚ) / 500).den = 500 := by norm_num
  have hr : roundQuotient 53 617 500 = (5557441940175192, -52) := by decide
  rw [h1]
  simp only [roundDouble, roundToBits, hn, hd, hr]
  norm_num

/-- The walker mesh advanced to 1234567891 ns, evaluated with the rounding of
a `double` division: `run`, enabled, is set to the `double` nearest to 1.234;
`walk`, disabled, keeps its time position 0. -/
theorem OgreMesh.updateSkeletonAnimation_walker :
    OgreMesh.UpdateSkeletonAnimation roundDouble OgreMesh.walker 1234567891 =
      some { OgreMesh.walker with
        ogreEntity := some { Entity.walker with
          animationStates := [⟨"walk", false, false, 1, 0⟩,
            ⟨"run", true, true, 1 / 4, 5557441940175192 / 4503599627370496⟩] }
        calls := [Call.setAnimationState, Call.notifyManualBonesDirty] } := by
  have hms : ((Int.tdiv 1234567891 1000000 : Int) : ℚ) = 1234 := by norm_num [Int.tdiv]
  simp [OgreMesh.UpdateSkeletonAnimation, OgreMesh.walker, Entity.walker, walkerBones,
    durationSeconds, durationMilliseconds, hms, roundDouble_1234_milliseconds]

/-- Witness for C8: enabling `walk` on the walker mesh, whose bone `knee` is
under manual control. -/
theorem OgreMesh.setSkeletonAnimationEnabled_true_witness :
    OgreMesh.walker.ogreEntity = some Entity.walker ∧
    Entity.walker.skeleton = some walkerBones ∧
    Entity.walker.hasAnimationState "walk" = true ∧
    ((∃ (m2 : OgreMesh) (e2 : Entity) (skel2 : List Bone) (anim : AnimationState),
      OgreMesh.SetSkeletonAnimationEnabled OgreMesh.walker "walk" true true (1 / 2) = some m2 ∧
      m2.ogreEntity = some e2 ∧ e2.skeleton = some skel2 ∧
      (∀ b ∈ skel2, b.manuallyControlled = false) ∧
      skel2 = walkerBones.map (fun b => { b with manuallyControlled := false }) ∧
      e2.getAnimationState "walk" = some anim ∧
      anim.name = "walk" ∧ anim.enabled = true ∧ anim.loop = true ∧ anim.weight = 1 / 2) ∧
    (∀ T : List (String × Matrix4d),
      ∃ (m1 m3 : OgreMesh) (e3 : Entity) (skel3 : List Bone),
        OgreMesh.SetSkeletonLocalTransforms OgreMesh.walker T = some m1 ∧
        OgreMesh.SetSkeletonAnimationEnabled m1 "walk" true true (1 / 2) = some m3 ∧
        m3.ogreEntity = some e3 ∧ e3.skeleton = some skel3 ∧
        skel3.length = walkerBones.length ∧
        ∀ b ∈ skel3, b.manuallyControlled = false)) :=
  ⟨rfl, rfl, by decide,
    OgreMesh.setSkeletonAnimationEnabled_true OgreMesh.walker Entity.walker _ "walk" true (1 / 2)
      rfl rfl (by decide)⟩

/-- C11: on a mesh whose native entity has no skeleton (whatever its other
fields), `SkeletonLocalTransforms()` returns the empty mapping and
`SetSkeletonLocalTransforms(T)` returns with the mesh unchanged, but
`UpdateSkeletonAnimation(t)` does not complete: it dereferences the absent
skeleton, for every `t` (and whatever the floating-point rounding `fl`); in
particular on the mesh `OgreMesh.rigid` at `t = 0`. -/
theorem OgreMesh.updateSkeletonAnimation_without_skeleton (shadows : Bool)
    (anims : List AnimationState) (init : Bool) (log : List Call)
    (T : List (String × Matrix4d)) (t : Int) (fl : ℚ → ℚ) :
    OgreMesh.HasSkeleton ⟨some ⟨shadows, none, anims⟩, init, log⟩ = some false ∧
    OgreMesh.SkeletonLocalTransforms ⟨some ⟨shadows, none, anims⟩, init, log⟩ = some [] ∧
    OgreMesh.SetSkeletonLocalTransforms ⟨some ⟨shadows, none, anims⟩, init, log⟩ T =
      some ⟨some ⟨shadows, none, anims⟩, init, log⟩ ∧
    OgreMesh.UpdateSkeletonAnimation fl ⟨some ⟨shadows, none, anims⟩, init, log⟩ t = none ∧
    OgreMesh.UpdateSkeletonAnimation fl OgreMesh.rigid 0 = none := by
  refine ⟨rfl, rfl, rfl, rfl, rfl⟩

/-! ## Single ownership -/

/-- The empty scene satisfies the ownership invariant. -/
theorem ownershipInvariant_empty : OwnershipInvariant World.empty := by
  refine ⟨fun a b h => h, fun a b h => h, ?_, ?_⟩ <;>
    simp [World.empty]

/-- The ownership invariant gives single ownership. -/
theorem singleOwnership_of_invariant (w : World) (h : OwnershipInvariant w) :
    SingleOwnership w := by
  obtain ⟨_, _, hn, hg⟩ := h
  refine ⟨?_, hn, ?_, hg⟩
  · intro c P Q hP hQ
    have h1 := hn c P hP
    have h2 := hn c Q hQ
    rw [h1] at h2
    exact Option.some.inj h2
  · intro g V U hV hU
    have h1 := hg g V hV
    have h2 := hg g U hU
    rw [h1] at h2
    exact Option.some.inj h2

/-- An `AttachChild` call made under the discipline keeps the invariant. -/
theorem ownershipInvariant_attachChild (w : World) (v : Nat) (x : NodePtr)
    (h : OwnershipInvariant w) (hd : (VisualCall.AttachChild v x).DetachedFirst w) :
    OwnershipInvariant (OgreVisual.AttachChild w v x).2 := by
  obtain ⟨hin, hio, hn, hg⟩ := h
  cases hx : dynamic_pointer_cast x with
  | none =>
    have : (OgreVisual.AttachChild w v x).2 = w := by simp [OgreVisual.AttachChild, hx]
    rw [this]
    exact ⟨hin, hio, hn, hg⟩
  | some c =>
    have hguard := hd c hx
    refine ⟨?_, ?_, ?_, ?_⟩
    · simpa [OgreVisual.AttachChild, hx, OgreNode.SetParent, SceneNode.addChild] using hin
    · simpa [OgreVisual.AttachChild, hx, OgreNode.SetParent, SceneNode.addChild] using hio
    · intro c2 P
      simp only [OgreVisual.AttachChild, hx, OgreNode.SetParent, SceneNode.addChild]
      intro hmem
      by_cases hP : P = v
      · subst hP
        by_cases hc : c2 = c
        · subst hc
          simp
        · rw [Function.update_same, List.mem_insert_iff] at hmem
          rcases hmem with heq | hold
          · exact absurd (hin heq) hc
          · rw [Function.update_noteq (by simpa using hc)]
            exact hn c2 P hold
      · have hne : w.ogreNode P ≠ w.ogreNode v := fun he => hP (hin he)
        rw [Function.update_noteq hne] at hmem
        by_cases hc : c2 = c
        · subst hc
          exact absurd hmem (hguard P hP)
        · rw [Function.update_noteq (by simpa using hc)]
          exact hn c2 P hmem
    · simpa [OgreVisual.AttachChild, hx, OgreNode.SetParent, SceneNode.addChild] using hg

/-- An `AttachGeometry` call made under the discipline keeps the invariant. -/
theorem ownershipInvariant_attachGeometry (w : World) (v : Nat) (x : GeometryPtr)
    (h : OwnershipInvariant w) (hd : (VisualCall.AttachGeometry v x).DetachedFirst w) :
    OwnershipInvariant (OgreVisual.AttachGeometry w v x).2 := by
  obtain ⟨hin, hio, hn, hg⟩ := h
  cases hx : dynamic_pointer_cast x with
  | none =>
    have : (OgreVisual.AttachGeometry w v x).2 = w := by simp [OgreVisual.AttachGeometry, hx]
    rw [this]
    exact ⟨hin, hio, hn, hg⟩
  | some g =>
    have hguard := hd g hx
    refine ⟨?_, ?_, ?_, ?_⟩
    · simpa [OgreVisual.AttachGeometry, hx, OgreGeometry.SetParent, SceneNode.attachObject]
        using hin
    · simpa [OgreVisual.AttachGeometry, hx, OgreGeometry.SetParent, SceneNode.attachObject]
        using hio
    · simpa [OgreVisual.AttachGeometry, hx, OgreGeometry.SetParent, SceneNode.attachObject]
        using hn
    · intro g2 V
      simp only [OgreVisual.AttachGeometry, hx, OgreGeometry.SetParent, SceneNode.attachObject]
      intro hmem
      by_cases hV : V = v
      · subst hV
        by_cases hc : g2 = g
        · subst hc
          simp
        · rw [Function.update_same, List.mem_insert_iff] at hmem
          rcases hmem with heq | hold
          · exact absurd (hio heq) hc
          · rw [Function.update_noteq (by simpa using hc)]
            exact hg g2 V hold
      · have hne : w.ogreNode V ≠ w.ogreNode v := fun he => hV (hin he)
        rw [Function.update_noteq hne] at hmem
        by_cases hc : g2 = g
        · subst hc
          exact absurd hmem (hguard V hV)
        · rw [Function.update_noteq (by simpa using hc)]
          exact hg g2 V hmem

/-- A `DetachChild` call keeps the invariant. -/
theorem ownershipInvariant_detachChild (w : World) (v : Nat) (x : NodePtr)
    (h : OwnershipInvariant w) : OwnershipInvariant (OgreVisual.DetachChild w v x).2 := by
  obtain ⟨hin, hio, hn, hg⟩ := h
  cases hx : dynamic_pointer_cast x with
  | none =>
    have : (OgreVisual.DetachChild w v x).2 = w := by simp [OgreVisual.DetachChild, hx]
    rw [this]
    exact ⟨hin, hio, hn, hg⟩
  | some c =>
    refine ⟨?_, ?_, ?_, ?_⟩
    · simpa [OgreVisual.DetachChild, hx, SceneNode.removeChild] using hin
    · simpa [OgreVisual.DetachChild, hx, SceneNode.removeChild] using hio
    · intro c2 P
      simp only [OgreVisual.DetachChild, hx, SceneNode.removeChild]
      intro hmem
      by_cases hP : w.ogreNode P = w.ogreNode v
      · rw [hP, Function.update_same] at hmem
        exact hn c2 P (hP ▸ (List.mem_filter.mp hmem).1)
      · rw [Function.update_noteq hP] at hmem
        exact hn c2 P hmem
    · simpa [OgreVisual.DetachChild, hx, SceneNode.removeChild] using hg

/-- A `DetachGeometry` call keeps the invariant. -/
theorem ownershipInvariant_detachGeometry (w : World) (v : Nat) (x : GeometryPtr)
    (h : OwnershipInvariant w) : OwnershipInvariant (OgreVisual.DetachGeometry w v x).2 := by
  obtain ⟨hin, hio, hn, hg⟩ := h
  cases hx : dynamic_pointer_cast x with
  | none =>
    have : (OgreVisual.DetachGeometry w v x).2 = w := by simp [OgreVisual.DetachGeometry, hx]
    rw [this]
    exact ⟨hin, hio, hn, hg⟩
  | some g =>
    refine ⟨?_, ?_, ?_, ?_⟩
    · simpa [OgreVisual.DetachGeometry, hx, SceneNode.detachObject] using hin
    · simpa [OgreVisual.DetachGeometry, hx, SceneNode.detachObject] using hio
    · simpa [OgreVisual.DetachGeometry, hx, SceneNode.detachObject] using hn
    · intro g2 V
      simp only [OgreVisual.DetachGeometry, hx, SceneNode.detachObject]
      intro hmem
      by_cases hV : w.ogreNode V = w.ogreNode v
      · rw [hV, Function.update_same] at hmem
        exact hg g2 V (hV ▸ (List.mem_filter.mp hmem).1)
      · rw [Function.update_noteq hV] at hmem
        exact hg g2 V hmem

/-- A sequence of calls made under the discipline keeps the invariant. -/
theorem ownershipInvariant_runCalls (calls : List VisualCall) (w : World)
    (h : OwnershipInvariant w) (hd : DetachedFirst w calls) :
    OwnershipInvariant (runCalls w calls) := by
  induction calls generalizing w with
  | nil => exact h
  | cons call calls ih =>
    obtain ⟨hcall, hrest⟩ := hd
    have hstep : OwnershipInvariant (call.run w) := by
      cases call with
      | AttachChild v x => exact ownershipInvariant_attachChild w v x h hcall
      | DetachChild v x => exact ownershipInvariant_detachChild w v x h
      | AttachGeometry v x => exact ownershipInvariant_attachGeometry w v x h hcall
      | DetachGeometry v x => exact ownershipInvariant_detachGeometry w v x h
    exact ih (call.run w) hstep hrest


/-- C12 (as stated, refuted): from the empty scene, visual 1 and then visual 2
attach Ogre geometry 5.  Afterwards the native object of the geometry is
attached to the native node of visual 1 and to that of visual 2, while the
owner back-reference names visual 2 only: single ownership fails. -/
theorem attachGeometry_twice_shares_geometry :
    (runCalls World.empty attachTwiceCalls).ogreObject 5 ∈
      (runCalls World.empty attachTwiceCalls).sceneObjects
        ((runCalls World.empty attachTwiceCalls).ogreNode 1) ∧
    (runCalls World.empty attachTwiceCalls).ogreObject 5 ∈
      (runCalls World.empty attachTwiceCalls).sceneObjects
        ((runCalls World.empty attachTwiceCalls).ogreNode 2) ∧
    (runCalls World.empty attachTwiceCalls).geometryParent ⟨Engine.ogre, 5⟩ = some 2 ∧
    ¬ SingleOwnership (runCalls World.empty attachTwiceCalls) := by
  have h1 : (runCalls World.empty attachTwiceCalls).ogreObject 5 ∈
      (runCalls World.empty attachTwiceCalls).sceneObjects
        ((runCalls World.empty attachTwiceCalls).ogreNode 1) := by
    simp [runCalls, attachTwiceCalls, VisualCall.run, OgreVisual.AttachGeometry,
      dynamic_pointer_cast, OgreGeometry.SetParent, SceneNode.attachObject, World.empty]
  have h2 : (runCalls World.empty attachTwiceCalls).ogreObject 5 ∈
      (runCalls World.empty attachTwiceCalls).sceneObjects
        ((runCalls World.empty attachTwiceCalls).ogreNode 2) := by
    simp [runCalls, attachTwiceCalls, VisualCall.run, OgreVisual.AttachGeometry,
      dynamic_pointer_cast, OgreGeometry.SetParent, SceneNode.attachObject, World.empty]
  refine ⟨h1, h2, ?_, ?_⟩
  · simp [runCalls, attachTwiceCalls, VisualCall.run, OgreVisual.AttachGeometry,
      dynamic_pointer_cast, OgreGeometry.SetParent, SceneNode.attachObject, World.empty]
  · intro hs
    have howner := hs.2.2.2 5 1 h1
    simp [runCalls, attachTwiceCalls, VisualCall.run, OgreVisual.AttachGeometry,
      dynamic_pointer_cast, OgreGeometry.SetParent, SceneNode.attachObject, World.empty]
      at howner

/-- C12 (amended): in every state reached from the empty scene by a sequence
of `AttachChild`, `DetachChild`, `AttachGeometry` and `DetachGeometry` calls in
which each attach call is made for a node or geometry that is not, at that
moment, natively attached to a different visual (explicit detach first), every
node is a native child of at most one visual and every geometry is attached to
at most one visual, and that visual is the one its back-reference names. -/
theorem singleOwnership_of_detachedFirst (calls : List VisualCall)
    (hd : DetachedFirst World.empty calls) :
    SingleOwnership (runCalls World.empty calls) :=
  singleOwnership_of_invariant _
    (ownershipInvariant_runCalls calls World.empty ownershipInvariant_empty hd)

/-- Witness for C12 (amended): a geometry and a node are moved between visuals,
each detached before it is attached again. -/
theorem singleOwnership_of_detachedFirst_witness :
    DetachedFirst World.empty reattachCalls ∧
    SingleOwnership (runCalls World.empty reattachCalls) :=
  ⟨by
    simp [DetachedFirst, VisualCall.DetachedFirst, reattachCalls, VisualCall.run,
      OgreVisual.AttachGeometry, OgreVisual.DetachGeometry, OgreVisual.AttachChild,
      OgreVisual.DetachChild, dynamic_pointer_cast, OgreGeometry.SetParent,
      OgreNode.SetParent, SceneNode.attachObject, SceneNode.detachObject,
      SceneNode.addChild, SceneNode.removeChild, World.empty, Function.update_apply],
   singleOwnership_of_detachedFirst reattachCalls (by
    simp [DetachedFirst, VisualCall.DetachedFirst, reattachCalls, VisualCall.run,
      OgreVisual.AttachGeometry, OgreVisual.DetachGeometry, OgreVisual.AttachChild,
      OgreVisual.DetachChild, dynamic_pointer_cast, OgreGeometry.SetParent,
      OgreNode.SetParent, SceneNode.attachObject, SceneNode.detachObject,
      SceneNode.addChild, SceneNode.removeChild, World.empty, Function.update_apply])⟩

end GzRendering
